import Mathlib

/-!
Verification of the OctoPrint-FlashForge plugin core
(src/octoprint_flashforge/__init__.py) against its natural-language
specification.

Two parts of the plugin carry the algorithmic content:

* the gcode translation hook rewrite_gcode, a pure rule chain mapping an
  incoming command line plus the live connection state to the commands
  actually sent to the printer, and
* the SD-upload session upload_to_sd / process_upload, a chunked transfer
  state machine over an abstract serial link.

Both are embedded shallowly below.  Machine strings are Lean Strings,
the serial link is an oracle (UploadEnv) supplying the outcome of each
link operation, and the upload session is rendered as the trace of
observable events it performs, in program order.
-/

/-! ### String helpers mirroring the Python primitives used by the source -/

/-- Boolean test that the first list is an initial segment of the second. -/
def listStartsWith : List Char → List Char → Bool
  | [], _ => true
  | _ :: _, [] => false
  | a :: as, b :: bs => a == b && listStartsWith as bs

/-- Boolean test that the first list occurs contiguously somewhere inside the
second; mirrors the Python substring operator on strings. -/
def listHasSub (needle : List Char) : List Char → Bool
  | [] => listStartsWith needle []
  | b :: bs => listStartsWith needle (b :: bs) || listHasSub needle bs

/-- Python substring containment: needle occurs inside hay. -/
def strIn (needle hay : String) : Bool :=
  listHasSub needle.data hay.data

/-- Python str.replace on character lists: replace every non-overlapping
occurrence of needle (scanning left to right) by repl.  The extra fuel
argument only drives structural recursion; it is called with the length of
the scanned list, which always suffices because every step consumes at
least one character. -/
def listReplaceGo (needle repl : List Char) : Nat → List Char → List Char
  | _, [] => []
  | 0, s => s
  | fuel + 1, b :: bs =>
    if 0 < needle.length ∧ listStartsWith needle (b :: bs) = true then
      repl ++ listReplaceGo needle repl fuel ((b :: bs).drop needle.length)
    else
      b :: listReplaceGo needle repl fuel bs

/-- Python str.replace lifted to String. -/
def strReplace (needle repl s : String) : String :=
  String.mk (listReplaceGo needle.data repl.data s.data.length s.data)

/-- Python cmd.replace with the zero character and the empty string: removes
every occurrence of the character 0 from the string (used by the G28 rule). -/
def stripZeros (s : String) : String :=
  String.mk (s.data.filter (fun c => c != '0'))

/-! ### Command parsing -/

/-- Regex test performed by rewrite_gcode at its entry (source line 206):
the line begins with letter G, M or T followed by at least one digit. -/
def matchGMT (cmd : String) : Bool :=
  match cmd.data with
  | c0 :: c1 :: _ => (c0 == 'G' || c0 == 'M' || c0 == 'T') && c1.isDigit
  | _ => false

/-- Modelled from the spec: the gcode argument that OctoPrint (an external
collaborator, not part of this repository) passes to the queuing hook.  Per
the host command grammar the opcode of a G or M command is the letter
followed by its full digit run, and the opcode of a tool-select command
(letter T followed by digits) is the single letter T. -/
def parse_gcode (cmd : String) : Option String :=
  match cmd.data with
  | c0 :: c1 :: rest =>
    if (c0 == 'G' || c0 == 'M') && c1.isDigit then
      some (String.mk (c0 :: c1 :: rest.takeWhile Char.isDigit))
    else if c0 == 'T' && c1.isDigit then
      some "T"
    else
      none
  | _ => none

/-! ### Connection state and the translation hook -/

/-- Flags read from the serial object by rewrite_gcode; each field models
the method of the same name on the FlashForge serial object. -/
structure SerialState where
  is_sd_printing : Bool
  is_ready : Bool
  is_printing : Bool
deriving DecidableEq

/-- Flag read from the comm instance by rewrite_gcode. -/
structure CommState where
  isCancelling : Bool
deriving DecidableEq

/-- Configuration flag: G91_disabled(), the printer-profile option ff.noG91
saying the device does not support relative positioning. -/
structure Config where
  noG91 : Bool
deriving DecidableEq

/-- Result of the queuing hook: Python returns either the (possibly
rewritten) command as a single string, or a list of command strings.  The
queue tags (cmd type) attached to some rewritten commands in the source
are host bookkeeping only and are omitted here. -/
inductive CmdOut where
  | str (s : String)
  | list (cs : List String)
deriving DecidableEq

/-- Full result of the hook: the returned value plus the single documented
side effect, the argument of the disable G91 call on the serial object
when the G91 rule fires. -/
structure RewriteResult where
  out : CmdOut
  setDisableG91 : Option Bool := none
deriving DecidableEq

/-- Allow-list of opcodes that are not suppressed while printing from the
on-device SD card (source line 218). -/
def sdAllowList : List String :=
  ["M24", "M25", "M26", "M27", "M104", "M105", "M112", "M114", "M117", "M400"]

/-- Body of the ordered first-match-wins rule chain of rewrite_gcode
(source lines 217-303), evaluated only when a serial object is present and
the command matched the opcode pattern.  The argument g is the opcode
OctoPrint passed alongside the command. -/
def rewrite_chain (st : SerialState) (comm : CommState) (cfg : Config)
    (g cmd : String) : RewriteResult :=
  if st.is_sd_printing && ! (sdAllowList.contains g) then
    { out := .list [] }
  else if g == "G28" then
    let cmd2 := stripZeros cmd
    if cfg.noG91 && (cmd2 == "G28 X Y") then
      { out := .list ["G28 X", "G28 Y"] }
    else
      { out := .str cmd2 }
  else if g == "G91" then
    if cfg.noG91 then
      { out := .list ["G91", "M114"], setDisableG91 := some true }
    else
      { out := .str cmd, setDisableG91 := some false }
  else if (g == "M20" || g == "M21") && ! st.is_ready then
    { out := .list [] }
  else if g == "M26" then
    if (cmd == "M26 S0") && comm.isCancelling then
      { out := .list ["M26"] }
    else
      { out := .list [] }
  else if g == "M82" then
    { out := .list [] }
  else if g == "M83" then
    { out := .list [] }
  else if g == "M84" then
    { out := .list ["M18"] }
  else if g == "M106" then
    if strIn "S0" cmd then
      { out := .list ["M107"] }
    else
      { out := .str cmd }
  else if cmd == "M108" then
    { out := .list [] }
  else if g == "M109" then
    { out := .list [strReplace "M109" "M6" cmd] }
  else if g == "M110" then
    { out := .list [] }
  else if g == "M119" then
    { out := .list [] }
  else if g == "M146" && st.is_printing then
    { out := .list [] }
  else if g == "M190" then
    { out := .list [strReplace "M190" "M7" cmd] }
  else if g == "T" then
    { out := .list ["M108 " ++ cmd] }
  else
    { out := .str cmd }

/-- Shallow embedding of FlashForgePlugin.rewrite_gcode (source lines
203-308).  The serial argument is none when no serial object is present;
the gcode opcode is recomputed from the command by parse_gcode, mirroring
the value OctoPrint passes alongside the command. -/
def rewrite_gcode (serial : Option SerialState) (comm : CommState)
    (cfg : Config) (cmd : String) : RewriteResult :=
  match serial with
  | none => { out := .str cmd }
  | some st =>
    if ! matchGMT cmd then
      { out := .list [] }
    else
      rewrite_chain st comm cfg ((parse_gcode cmd).getD "") cmd

/-! ### Upload session -/

/-- Chunk size used by process_upload (source line 33). -/
def FILE_PACKET_SIZE : Nat := 1024

/-- Abstraction of a raw response from the link; only the two byte-string
membership tests performed by process_upload are retained. -/
structure Resp where
  hasCMDM28 : Bool
  hasFailed : Bool
deriving DecidableEq

/-- Outcome of one operation on the serial link: a returned value, or a
FlashForgeError raised by the transport. -/
inductive LinkRes (α : Type) where
  | ret (a : α)
  | raiseErr
deriving DecidableEq

/-- Oracle for the serial link during one upload session: the outcome of
each sendcommand, writeraw and readraw call that process_upload performs,
in program order.  The write field gives the outcome of the i-th chunk
write. -/
structure UploadEnv where
  heater1 : LinkRes (Bool × Resp)
  heater2 : LinkRes (Bool × Resp)
  heater3 : LinkRes (Bool × Resp)
  m28 : LinkRes (Bool × Resp)
  write : Nat → LinkRes Bool
  m29 : LinkRes (Bool × Resp)
  readr : LinkRes Resp

/-- Observable events of an upload session, in the order process_upload
performs them.  The callback events stand for the sd upload started,
succeeded and failed callbacks (whose arguments are always the filename,
the remote name, and priority 10); raised marks a FlashForgeError escaping
the session thread, raisedMsg the explicit raise at the end of the failure
path. -/
inductive Ev where
  | makeExclusive (exclusive : Bool)
  | send (cmd : String)
  | writeChunk (start len : Nat)
  | readRaw
  | progress (pct : Nat)
  | started
  | succeeded
  | failed
  | selectFile (path : String)
  | raised
  | raisedMsg (msg : String)
deriving DecidableEq

/-- Outcome of the chunk-streaming while loop. -/
inductive LoopOut where
  | done
  | brk (msg : String)
  | raisedE
  | stuck
deriving DecidableEq

/-- The chunk-streaming while loop of process_upload (source lines
341-356), one recursive step per iteration.  The fuel argument only
bounds the recursion structurally; the loop advances start by the packet
size each step, so the fuel passed by chunkLoop always suffices and the
stuck outcome is unreachable from chunkLoop.  Each iteration slices the
chunk from start to min (start plus packet size) n, fails the transfer
when the write fails, and otherwise records the integer progress
percentage assigned to the upload_percent attribute. -/
def chunkGo (env : UploadEnv) (n : Nat) : Nat → Nat → Nat → List Ev × LoopOut
  | 0, _, start => if start < n then ([], .stuck) else ([], .done)
  | fuel + 1, i, start =>
    if start < n then
      let endIdx := min (start + FILE_PACKET_SIZE) n
      let len := endIdx - start
      if len = 0 then ([], .brk "unexpected eof")
      else
        match env.write i with
        | .raiseErr => ([.writeChunk start len], .raisedE)
        | .ret true =>
          let rest := chunkGo env n fuel (i + 1) (start + FILE_PACKET_SIZE)
          (.writeChunk start len :: .progress (100 * endIdx / n) :: rest.1, rest.2)
        | .ret false => ([.writeChunk start len], .brk "File transfer interrupted")
    else ([], .done)

/-- The while loop entered with chunk_start_index zero; the file has n
bytes, so n plus one fuel units are always enough. -/
def chunkLoop (env : UploadEnv) (n : Nat) : List Ev × LoopOut :=
  chunkGo env n (n + 1) 0 0

/-- Wire form of the transfer-start command (source line 333). -/
def m28Cmd (n : Nat) (name : String) : String :=
  "M28 " ++ toString n ++ " 0:/user/" ++ name

/-- Events and outcome of the part of process_upload before the try block
(source lines 325-338): acquire exclusivity, send the three heater-off
commands, send the transfer-start command.  A FlashForgeError raised by
any of these calls is not caught anywhere in process_upload, so the
outcome is none (the session escapes); otherwise the outcome carries the
acknowledgment flag of the M28 command. -/
def preTry (env : UploadEnv) (n : Nat) (name : String) : List Ev × Option Bool :=
  let e1 := [Ev.makeExclusive true, Ev.send "M104 S0 T0"]
  match env.heater1 with
  | .raiseErr => (e1, none)
  | .ret _ =>
    let e2 := e1 ++ [Ev.send "M104 S0 T1"]
    match env.heater2 with
    | .raiseErr => (e2, none)
    | .ret _ =>
      let e3 := e2 ++ [Ev.send "M140 S0"]
      match env.heater3 with
      | .raiseErr => (e3, none)
      | .ret _ =>
        let e4 := e3 ++ [Ev.send (m28Cmd n name)]
        match env.m28 with
        | .raiseErr => (e4, none)
        | .ret (ok, _) => (e4, some ok)

/-- Outcome of the try block after the loop completed or aborted. -/
inductive TryOut where
  | success
  | failure (msg : String)
deriving DecidableEq

/-- Transfer-end handling of process_upload (source lines 359-365),
reached only when no error is pending: send M29; if the response echoes
the M28 command perform one raw read; succeed when the response carries
no failure marker, otherwise record the incomplete-transfer error.  A
FlashForgeError raised by either call is caught by the except clause,
which records the incomplete-transfer error. -/
def m29Seq (env : UploadEnv) : List Ev × TryOut :=
  match env.m29 with
  | .raiseErr => ([Ev.send "M29"], .failure "File transfer incomplete")
  | .ret (result, resp) =>
    if result && resp.hasCMDM28 then
      match env.readr with
      | .raiseErr => ([Ev.send "M29", Ev.readRaw], .failure "File transfer incomplete")
      | .ret resp2 =>
        if result && ! resp2.hasFailed then
          ([Ev.send "M29", Ev.readRaw], .success)
        else
          ([Ev.send "M29", Ev.readRaw], .failure "File transfer incomplete")
    else
      if result && ! resp.hasFailed then
        ([Ev.send "M29"], .success)
      else
        ([Ev.send "M29"], .failure "File transfer incomplete")

/-- Events and outcome of the whole try block of process_upload (source
lines 340-369) given the error string pending when it is entered: the
chunk loop always runs; a loop abort or a caught FlashForgeError yields
the corresponding failure; when the loop finishes the transfer-end
sequence runs only if no error is pending, and a pending error (such as
the transfer-start failure) becomes the failure outcome without any
transfer-end command being sent. -/
def tryPart (env : UploadEnv) (error0 : String) (n : Nat) : List Ev × TryOut :=
  match (chunkLoop env n).2 with
  | .raisedE => ((chunkLoop env n).1, .failure "File transfer incomplete")
  | .brk e => ((chunkLoop env n).1, .failure e)
  | .stuck => ((chunkLoop env n).1, .failure "File transfer incomplete")
  | .done =>
    if error0 = "" then
      ((chunkLoop env n).1 ++ (m29Seq env).1, (m29Seq env).2)
    else
      ((chunkLoop env n).1, .failure error0)

/-- Shallow embedding of process_upload (source lines 318-380) as the
trace of its observable events.  On the failure path the source invokes
the failed callback, then releases exclusivity, then raises a
FlashForgeError carrying the error text; on the success path the
succeeded callback was already invoked inside the try block, then
exclusivity is released and the remote file is selected (which also
starts the print).  The error recorded when the M28 acknowledgment is
missing is the literal prefix of the formatted message (the source
appends the raw device answer). -/
def processUpload (env : UploadEnv) (n : Nat) (name : String) : List Ev :=
  match preTry env n name with
  | (evs, none) => evs ++ [Ev.raised]
  | (evs, some ok) =>
    match tryPart env (if ok then "" else "file transfer not started") n with
    | (tevs, .success) =>
      evs ++ tevs
        ++ [Ev.succeeded, Ev.makeExclusive false, Ev.selectFile ("0:/user/" ++ name)]
    | (tevs, .failure msg) =>
      evs ++ tevs ++ [Ev.failed, Ev.makeExclusive false, Ev.raisedMsg msg]

/-- Shallow embedding of upload_to_sd (source lines 312-400) for the case
that a serial object is present: the file is read (its length is n), the
started callback fires, and the upload thread then runs process_upload.
The remote name is always the source filename. -/
def uploadToSd (env : UploadEnv) (n : Nat) (name : String) : List Ev :=
  Ev.started :: processUpload env n name

/-! ### Trace predicates and concrete environments -/

/-- Completion callback events. -/
def isCb : Ev → Bool
  | .succeeded => true
  | .failed => true
  | _ => false

/-- Scan deciding whether every completion callback in the trace is
preceded by a release of exclusivity; the accumulator records whether a
release was already seen. -/
def relBeforeCbAux : List Ev → Bool → Bool
  | [], _ => true
  | e :: rest, seen =>
    match e with
    | .makeExclusive false => relBeforeCbAux rest true
    | .succeeded => seen && relBeforeCbAux rest seen
    | .failed => seen && relBeforeCbAux rest seen
    | _ => relBeforeCbAux rest seen

/-- Every completion callback in the trace happens after a release of
exclusivity. -/
def relBeforeCb (t : List Ev) : Bool := relBeforeCbAux t false

/-- The events after the first completion callback, if any. -/
def afterFirstCb : List Ev → Option (List Ev)
  | [] => none
  | e :: rest => if isCb e then some rest else afterFirstCb rest

/-- Whenever a completion callback occurs, a release of exclusivity
occurs later in the trace. -/
def relAfterCb (t : List Ev) : Bool :=
  match afterFirstCb t with
  | none => true
  | some rest => rest.contains (Ev.makeExclusive false)

/-- Sizes of the chunks written, in order. -/
def chunkLens (t : List Ev) : List Nat :=
  t.filterMap fun e =>
    match e with
    | .writeChunk _ len => some len
    | _ => none

/-- Progress percentages reported, in order. -/
def progressList (t : List Ev) : List Nat :=
  t.filterMap fun e =>
    match e with
    | .progress p => some p
    | _ => none

/-- Events a session can emit before any callback: link traffic and data. -/
def preEv : Ev → Bool
  | .send _ => true
  | .readRaw => true
  | .makeExclusive _ => true
  | .writeChunk _ _ => true
  | .progress _ => true
  | _ => false

/-- Loop body events: chunk writes and progress reports. -/
def chunkEv : Ev → Bool
  | .writeChunk _ _ => true
  | .progress _ => true
  | _ => false

/-- Hypothesis that none of the pre-try link operations raises: the session
reaches the try block. -/
def preOk (env : UploadEnv) : Prop :=
  env.heater1 ≠ .raiseErr ∧ env.heater2 ≠ .raiseErr
    ∧ env.heater3 ≠ .raiseErr ∧ env.m28 ≠ .raiseErr

/-- Response with neither marker, used by the concrete environments. -/
def respOk : Resp := { hasCMDM28 := false, hasFailed := false }

/-- Link oracle for a fully successful session. -/
def envAllOk : UploadEnv :=
  { heater1 := .ret (true, respOk), heater2 := .ret (true, respOk),
    heater3 := .ret (true, respOk), m28 := .ret (true, respOk),
    write := fun _ => .ret true, m29 := .ret (true, respOk), readr := .ret respOk }

/-- Link oracle whose transfer-start command gets a negative
acknowledgment; everything else succeeds. -/
def envM28Nack : UploadEnv := { envAllOk with m28 := .ret (false, respOk) }

/-- Link oracle whose transfer-start command raises a transport error. -/
def envM28Raise : UploadEnv := { envAllOk with m28 := .raiseErr }

/-! ### Sanity checks on concrete inputs -/

example : rewrite_gcode (some ⟨false, true, false⟩) ⟨false⟩ ⟨true⟩ "G28 X0 Y0"
    = { out := .list ["G28 X", "G28 Y"] } := by decide

example : rewrite_gcode (some ⟨false, true, false⟩) ⟨false⟩ ⟨false⟩ "G28 X0 Y0"
    = { out := .str "G28 X Y" } := by decide

example : rewrite_gcode (some ⟨false, true, false⟩) ⟨false⟩ ⟨false⟩ "M109 S200"
    = { out := .list ["M6 S200"] } := by decide

example : rewrite_gcode (some ⟨true, true, false⟩) ⟨true⟩ ⟨false⟩ "M26 S0"
    = { out := .list ["M26"] } := by decide

example : uploadToSd envAllOk 10 "file.gx" =
    [Ev.started, Ev.makeExclusive true, Ev.send "M104 S0 T0", Ev.send "M104 S0 T1",
     Ev.send "M140 S0", Ev.send "M28 10 0:/user/file.gx", Ev.writeChunk 0 10,
     Ev.progress 100, Ev.send "M29", Ev.succeeded, Ev.makeExclusive false,
     Ev.selectFile "0:/user/file.gx"] := by decide

example : uploadToSd envM28Raise 10 "file.gx" =
    [Ev.started, Ev.makeExclusive true, Ev.send "M104 S0 T0", Ev.send "M104 S0 T1",
     Ev.send "M140 S0", Ev.send "M28 10 0:/user/file.gx", Ev.raised] := by decide

/-! ### General lemmas -/

theorem matchGMT_of_parse {cmd g : String} (h : parse_gcode cmd = some g) :
    matchGMT cmd = true := by
  unfold parse_gcode at h
  unfold matchGMT
  rcases hd : cmd.data with _ | ⟨c0, _ | ⟨c1, rest⟩⟩
  · rw [hd] at h; exact absurd h (by simp)
  · rw [hd] at h; exact absurd h (by simp)
  · simp only [hd] at h ⊢
    by_cases h1 : ((c0 == 'G' || c0 == 'M') && c1.isDigit) = true
    · simp only [Bool.and_eq_true, Bool.or_eq_true] at h1 ⊢
      tauto
    · by_cases h2 : (c0 == 'T' && c1.isDigit) = true
      · simp only [Bool.and_eq_true, Bool.or_eq_true] at h2 ⊢
        tauto
      · rw [if_neg h1, if_neg h2] at h
        exact absurd h (by simp)

theorem chunkGo_all_chunkEv (env : UploadEnv) (n : Nat) :
    ∀ fuel i start, ((chunkGo env n fuel i start).1).all chunkEv = true := by
  intro fuel
  induction fuel with
  | zero =>
    intro i start
    rw [chunkGo]
    split <;> simp
  | succ fuel ih =>
    intro i start
    rw [chunkGo]
    split
    · split <;> dsimp only <;> split <;> simp [chunkEv, ih]
    · simp

theorem all_preEv_of_all_chunkEv {l : List Ev} (h : l.all chunkEv = true) :
    l.all preEv = true := by
  rw [List.all_eq_true] at h ⊢
  intro e he
  have := h e he
  cases e <;> simp_all [chunkEv, preEv]

theorem m29Seq_all_preEv (env : UploadEnv) : ((m29Seq env).1).all preEv = true := by
  unfold m29Seq
  rcases hm : env.m29 with ⟨result, resp⟩ | _
  · dsimp only
    split
    · rcases hr : env.readr with resp2 | _
      · dsimp only
        split <;> simp [preEv]
      · simp [preEv]
    · split <;> simp [preEv]
  · simp [preEv]

theorem preTry_cases (env : UploadEnv) (n : Nat) (name : String) :
    (∃ evs, preTry env n name = (evs, none) ∧ evs.all preEv = true ∧ ¬ preOk env)
    ∨ (∃ evs ok r, preTry env n name = (evs, some ok) ∧ evs.all preEv = true
        ∧ env.m28 = .ret (ok, r) ∧ preOk env) := by
  unfold preTry preOk
  rcases h1 : env.heater1 with p1 | _
  · rcases h2 : env.heater2 with p2 | _
    · rcases h3 : env.heater3 with p3 | _
      · rcases h4 : env.m28 with ⟨ok, r⟩ | _
        · exact Or.inr ⟨_, ok, r, rfl, by simp [preEv], rfl, by simp⟩
        · exact Or.inl ⟨_, rfl, by simp [preEv], by simp⟩
      · exact Or.inl ⟨_, rfl, by simp [preEv], by simp⟩
    · exact Or.inl ⟨_, rfl, by simp [preEv], by simp⟩
  · exact Or.inl ⟨_, rfl, by simp [preEv], by simp⟩

theorem tryPart_all_preEv (env : UploadEnv) (e0 : String) (n : Nat) :
    ((tryPart env e0 n).1).all preEv = true := by
  have hc : ((chunkLoop env n).1).all preEv = true :=
    all_preEv_of_all_chunkEv (chunkGo_all_chunkEv env n (n + 1) 0 0)
  unfold tryPart
  rcases (chunkLoop env n).2 with _ | msg | _ | _
  · dsimp only
    split
    · rw [List.all_append, hc, m29Seq_all_preEv]
      rfl
    · exact hc
  · exact hc
  · exact hc
  · exact hc

theorem processUpload_none {env : UploadEnv} {n : Nat} {name : String} {evs : List Ev}
    (h : preTry env n name = (evs, none)) :
    processUpload env n name = evs ++ [Ev.raised] := by
  unfold processUpload
  rw [h]

theorem processUpload_success {env : UploadEnv} {n : Nat} {name : String}
    {evs tevs : List Ev} {ok : Bool}
    (h : preTry env n name = (evs, some ok))
    (ht : tryPart env (if ok then "" else "file transfer not started") n
      = (tevs, .success)) :
    processUpload env n name = evs ++ tevs
      ++ [Ev.succeeded, Ev.makeExclusive false, Ev.selectFile ("0:/user/" ++ name)] := by
  unfold processUpload
  rw [h]
  dsimp only
  rw [ht]

theorem processUpload_failure {env : UploadEnv} {n : Nat} {name : String}
    {evs tevs : List Ev} {ok : Bool} {msg : String}
    (h : preTry env n name = (evs, some ok))
    (ht : tryPart env (if ok then "" else "file transfer not started") n
      = (tevs, .failure msg)) :
    processUpload env n name = evs ++ tevs
      ++ [Ev.failed, Ev.makeExclusive false, Ev.raisedMsg msg] := by
  unfold processUpload
  rw [h]
  dsimp only
  rw [ht]

theorem processUpload_shape (env : UploadEnv) (n : Nat) (name : String) :
    ∃ p : List Ev, p.all preEv = true ∧
      ((processUpload env n name = p ++ [Ev.raised] ∧ ¬ preOk env)
      ∨ (∃ msg, processUpload env n name
          = p ++ [Ev.failed, Ev.makeExclusive false, Ev.raisedMsg msg])
      ∨ processUpload env n name
          = p ++ [Ev.succeeded, Ev.makeExclusive false,
              Ev.selectFile ("0:/user/" ++ name)]) := by
  rcases preTry_cases env n name with ⟨evs, hpt, hall, hpre⟩ | ⟨evs, ok, r, hpt, hall, hm28, hpre⟩
  · exact ⟨evs, hall, Or.inl ⟨processUpload_none hpt, hpre⟩⟩
  · have htall := tryPart_all_preEv env (if ok then "" else "file transfer not started") n
    rcases htp : tryPart env (if ok then "" else "file transfer not started") n
      with ⟨tevs, _ | msg⟩
    · refine ⟨evs ++ tevs, ?_, Or.inr (Or.inr ?_)⟩
      · rw [List.all_append, hall]
        rw [htp] at htall
        rw [htall]
        rfl
      · rw [processUpload_success hpt htp, List.append_assoc]
    · refine ⟨evs ++ tevs, ?_, Or.inr (Or.inl ⟨msg, ?_⟩)⟩
      · rw [List.all_append, hall]
        rw [htp] at htall
        rw [htall]
        rfl
      · rw [processUpload_failure hpt htp, List.append_assoc]

theorem isCb_false_of_preEv {e : Ev} (h : preEv e = true) : isCb e = false := by
  cases e <;> simp_all [preEv, isCb]

theorem notCb_of_all_preEv {p : List Ev} (hp : p.all preEv = true) :
    p.all (fun e => ! isCb e) = true := by
  rw [List.all_eq_true] at hp ⊢
  intro e he
  simp [isCb_false_of_preEv (hp e he)]

theorem afterFirstCb_append_quiet {p : List Ev} (t : List Ev)
    (hp : p.all (fun e => ! isCb e) = true) :
    afterFirstCb (p ++ t) = afterFirstCb t := by
  induction p with
  | nil => rfl
  | cons e p ih =>
    rw [List.all_cons, Bool.and_eq_true] at hp
    rw [List.cons_append, afterFirstCb]
    have he : isCb e = false := by simpa using hp.1
    simp [he, ih hp.2]

theorem count_started_zero {p : List Ev} (h : p.all preEv = true) :
    p.count Ev.started = 0 := by
  rw [List.count_eq_zero]
  intro hmem
  have := List.all_eq_true.mp h _ hmem
  simp [preEv] at this

theorem countP_isCb_zero {p : List Ev} (h : p.all preEv = true) :
    p.countP isCb = 0 := by
  rw [List.countP_eq_zero]
  intro e hmem
  have := List.all_eq_true.mp h _ hmem
  simp [isCb_false_of_preEv this]

/-! ### Claim theorems -/

/-- Claim C6 (confirmed): for every input line that does not begin with
letter G, M or T followed by a digit, the translation hook with a serial
object present returns the empty list, whatever the connection state and
configuration flags. -/
theorem rewrite_gcode_unmatched (st : SerialState) (comm : CommState) (cfg : Config)
    (cmd : String) (h : matchGMT cmd = false) :
    rewrite_gcode (some st) comm cfg cmd = { out := CmdOut.list [] } := by
  simp [rewrite_gcode, h]

/-- Claim C6 witness: a concrete header line is suppressed. -/
theorem rewrite_gcode_unmatched_witness :
    matchGMT ";TYPE:header" = false
    ∧ rewrite_gcode (some ⟨false, true, false⟩) ⟨false⟩ ⟨false⟩ ";TYPE:header"
        = { out := CmdOut.list [] } :=
  ⟨by decide, rewrite_gcode_unmatched ⟨false, true, false⟩ ⟨false⟩ ⟨false⟩ ";TYPE:header"
    (by decide)⟩

/-- Claim C10 (confirmed): when no serial object is present the hook
returns every incoming command unchanged as a plain string, including
lines that do not match the opcode pattern; nothing is suppressed or
rewritten and no side effect occurs. -/
theorem rewrite_gcode_no_serial (comm : CommState) (cfg : Config) (cmd : String) :
    rewrite_gcode none comm cfg cmd = { out := CmdOut.str cmd } := rfl

/-- Claim C9 (corrected): a fan command containing the S0 argument maps to
the single device fan-off command M107 whenever the print is not running
from on-device storage; while printing from storage the SD guard suppresses
it instead.  In both cases the command is never passed through verbatim. -/
theorem rewrite_gcode_fan_off (st : SerialState) (comm : CommState) (cfg : Config)
    (cmd : String) (hp : parse_gcode cmd = some "M106") (hS : strIn "S0" cmd = true) :
    (rewrite_gcode (some st) comm cfg cmd).out
      = (if st.is_sd_printing then CmdOut.list [] else CmdOut.list ["M107"])
    ∧ (rewrite_gcode (some st) comm cfg cmd).out ≠ CmdOut.str cmd := by
  have hm := matchGMT_of_parse hp
  rw [rewrite_gcode]
  simp only [hm, hp, Option.getD_some, Bool.not_true, Bool.false_eq_true, if_false]
  cases hsd : st.is_sd_printing <;>
    simp [rewrite_chain, hS, sdAllowList, hsd]

/-- Claim C9 counterexample: while printing from on-device storage, the
fan-off request is suppressed, not rewritten to M107 as the claim states
it always is. -/
theorem rewrite_gcode_fan_off_sd_cex :
    (rewrite_gcode (some ⟨true, true, false⟩) ⟨false⟩ ⟨false⟩ "M106 S0").out = CmdOut.list []
    ∧ (rewrite_gcode (some ⟨true, true, false⟩) ⟨false⟩ ⟨false⟩ "M106 S0").out
        ≠ CmdOut.list ["M107"] := by
  decide

/-- Claim C9 witness: the fan-off rewrite on a concrete idle state. -/
theorem rewrite_gcode_fan_off_witness :
    (rewrite_gcode (some ⟨false, true, false⟩) ⟨false⟩ ⟨false⟩ "M106 S0").out
        = CmdOut.list ["M107"]
    ∧ (rewrite_gcode (some ⟨false, true, false⟩) ⟨false⟩ ⟨false⟩ "M106 S0").out
        ≠ CmdOut.str "M106 S0" := by
  have h := rewrite_gcode_fan_off ⟨false, true, false⟩ ⟨false⟩ ⟨false⟩ "M106 S0"
    (by decide) (by decide)
  exact ⟨h.1.trans (by decide), h.2⟩

/-- Claim C8 (corrected): a command whose opcode is M108 is suppressed only
when the whole line is exactly M108 (the source compares the full command
text, deliberately letting the FlashForge toolhead form M108 Tx through);
when not printing from storage, an M108 command with an argument tail
passes through unchanged, and while printing from storage the SD guard
suppresses every M108 form. -/
theorem rewrite_gcode_M108 (st : SerialState) (comm : CommState) (cfg : Config)
    (cmd : String) (hp : parse_gcode cmd = some "M108") :
    (rewrite_gcode (some st) comm cfg cmd).out =
      (if st.is_sd_printing || (cmd == "M108") then CmdOut.list []
       else CmdOut.str cmd) := by
  have hm := matchGMT_of_parse hp
  rw [rewrite_gcode]
  simp only [hm, hp, Option.getD_some, Bool.not_true, Bool.false_eq_true, if_false]
  cases hsd : st.is_sd_printing
  · by_cases hx : cmd = "M108" <;> simp [rewrite_chain, hsd, sdAllowList, hx]
  · simp [rewrite_chain, hsd, sdAllowList]

/-- Claim C8 counterexample: the heater-wait-abort opcode with an argument
tail is forwarded unchanged, not suppressed as the claim states. -/
theorem rewrite_gcode_M108_tail_cex :
    (rewrite_gcode (some ⟨false, true, false⟩) ⟨false⟩ ⟨false⟩ "M108 T0").out
        = CmdOut.str "M108 T0"
    ∧ (rewrite_gcode (some ⟨false, true, false⟩) ⟨false⟩ ⟨false⟩ "M108 T0").out
        ≠ CmdOut.list [] := by
  decide

/-- Claim C8 witness: the bare M108 command is suppressed. -/
theorem rewrite_gcode_M108_witness :
    (rewrite_gcode (some ⟨false, true, false⟩) ⟨false⟩ ⟨false⟩ "M108").out = CmdOut.list [] := by
  rw [rewrite_gcode_M108 ⟨false, true, false⟩ ⟨false⟩ ⟨false⟩ "M108" (by decide)]
  decide

/-- Claim C3 (corrected): while printing from on-device storage, every
command whose opcode is outside the allow-list is suppressed; a command
whose opcode is in the allow-list passes through unmodified except for
M26, which still follows its cancel rule: it is forwarded as the bare
cancel command M26 exactly when the line is M26 S0 and a cancel is in
progress, and suppressed otherwise. -/
theorem rewrite_gcode_sd_guard (st : SerialState) (comm : CommState) (cfg : Config)
    (cmd g : String) (hp : parse_gcode cmd = some g) (hsd : st.is_sd_printing = true) :
    (sdAllowList.contains g = false →
      (rewrite_gcode (some st) comm cfg cmd).out = CmdOut.list [])
    ∧ (sdAllowList.contains g = true → g ≠ "M26" →
      (rewrite_gcode (some st) comm cfg cmd).out = CmdOut.str cmd)
    ∧ (g = "M26" →
      (rewrite_gcode (some st) comm cfg cmd).out =
        (if (cmd == "M26 S0") && comm.isCancelling then CmdOut.list ["M26"]
         else CmdOut.list [])) := by
  have hm := matchGMT_of_parse hp
  rw [rewrite_gcode]
  simp only [hm, hp, Option.getD_some, Bool.not_true, Bool.false_eq_true, if_false]
  refine ⟨?_, ?_, ?_⟩
  · intro hc
    have hc2 : g ∉ sdAllowList := by simpa using hc
    simp [rewrite_chain, hsd, hc2]
  · intro hc hne
    have hmem : g ∈ sdAllowList := List.mem_of_elem_eq_true hc
    simp only [sdAllowList, List.mem_cons, List.not_mem_nil, or_false] at hmem
    rcases hmem with rfl|rfl|rfl|rfl|rfl|rfl|rfl|rfl|rfl|rfl
    all_goals first
      | exact absurd rfl hne
      | (by_cases hx : cmd = "M108"
         · subst hx; exact absurd hp (by decide)
         · simp [rewrite_chain, hsd, sdAllowList, hx])
  · rintro rfl
    simp [rewrite_chain, hsd, sdAllowList]
    split <;> rfl

/-- Claim C3 counterexample: M26 is in the allow-list, yet during an SD
print a set-position form of it is suppressed rather than passed through
unmodified as the claim states for allow-listed opcodes. -/
theorem rewrite_gcode_sd_allowlist_cex :
    sdAllowList.contains "M26" = true
    ∧ (rewrite_gcode (some ⟨true, true, false⟩) ⟨false⟩ ⟨false⟩ "M26 S5").out = CmdOut.list []
    ∧ (rewrite_gcode (some ⟨true, true, false⟩) ⟨false⟩ ⟨false⟩ "M26 S5").out
        ≠ CmdOut.str "M26 S5" := by
  decide

/-- Claim C3 witness: during an SD print a temperature command from the
allow-list passes through unmodified and a command outside it is dropped. -/
theorem rewrite_gcode_sd_guard_witness :
    (rewrite_gcode (some ⟨true, true, false⟩) ⟨false⟩ ⟨false⟩ "M104 S0").out
      = CmdOut.str "M104 S0" :=
  (rewrite_gcode_sd_guard ⟨true, true, false⟩ ⟨false⟩ ⟨false⟩ "M104 S0" "M104"
      (by decide) rfl).2.1 (by decide) (by decide)

/-- Claim C4 (corrected): outside an SD print, a home command under the
no-G91 profile flag whose zero-stripped text is exactly G28 X Y becomes
the two single-axis home commands in X-then-Y order; in every other case
it becomes the single command with every occurrence of the character 0
removed.  Only the character 0 is stripped, not every digit as the claim
states. -/
theorem rewrite_gcode_home (st : SerialState) (comm : CommState) (cfg : Config)
    (cmd : String) (hp : parse_gcode cmd = some "G28") (hsd : st.is_sd_printing = false) :
    rewrite_gcode (some st) comm cfg cmd =
      (if cfg.noG91 && (stripZeros cmd == "G28 X Y") then
        { out := CmdOut.list ["G28 X", "G28 Y"] }
       else { out := CmdOut.str (stripZeros cmd) }) := by
  have hm := matchGMT_of_parse hp
  rw [rewrite_gcode]
  simp [hm, hp, rewrite_chain, hsd]

/-- Claim C4 counterexample: a home command naming axis X1 keeps its digit;
the claim predicts the single output G28 X with all digits removed. -/
theorem rewrite_gcode_home_digits_cex :
    (rewrite_gcode (some ⟨false, true, false⟩) ⟨false⟩ ⟨true⟩ "G28 X1").out
        = CmdOut.str "G28 X1"
    ∧ (rewrite_gcode (some ⟨false, true, false⟩) ⟨false⟩ ⟨true⟩ "G28 X1").out
        ≠ CmdOut.str "G28 X" := by
  decide

/-- Claim C4 witness: the two-command rewrite on the concrete request
G28 X0 Y0 with the no-G91 flag set. -/
theorem rewrite_gcode_home_witness :
    rewrite_gcode (some ⟨false, true, false⟩) ⟨false⟩ ⟨true⟩ "G28 X0 Y0"
      = { out := CmdOut.list ["G28 X", "G28 Y"] } := by
  rw [rewrite_gcode_home ⟨false, true, false⟩ ⟨false⟩ ⟨true⟩ "G28 X0 Y0" (by decide) rfl]
  decide

/-- Claim C1 (corrected): on every exit path of the upload session on which
a lifecycle callback fires, exclusive link ownership is released after the
callback, never before it; paths on which a pre-loop exception escapes fire
no callback and perform no release.  The claim as stated, release before
the callback, is refuted by the counterexample. -/
theorem upload_lock_released_after_callback (env : UploadEnv) (n : Nat) (name : String) :
    relAfterCb (uploadToSd env n name) = true := by
  obtain ⟨p, hall, hcase⟩ := processUpload_shape env n name
  have hq : (Ev.started :: p).all (fun e => ! isCb e) = true := by
    rw [List.all_cons, notCb_of_all_preEv hall]
    decide
  unfold uploadToSd relAfterCb
  rcases hcase with ⟨heq, -⟩ | ⟨msg, heq⟩ | heq <;> rw [heq, ← List.cons_append,
    afterFirstCb_append_quiet _ hq] <;> simp [afterFirstCb, isCb]

/-- Claim C1 counterexample: on a fully successful session the succeeded
callback fires while exclusivity is still held; no release precedes it. -/
theorem upload_lock_release_order_cex :
    relBeforeCb (uploadToSd envAllOk 2500 "file.gx") = false
    ∧ (uploadToSd envAllOk 2500 "file.gx").contains Ev.succeeded = true
    ∧ (uploadToSd envAllOk 2500 "file.gx").contains (Ev.makeExclusive false) = true := by
  decide

/-- Claim C5 (corrected): the started callback fires exactly once per
session, at most one completion callback ever fires, and exactly one
completion callback fires provided none of the pre-loop link operations
(exclusivity, heater-off commands, transfer-start) raises; when one of
them raises, the exception escapes the session thread and no completion
callback fires at all. -/
theorem upload_callbacks_once (env : UploadEnv) (n : Nat) (name : String) :
    (uploadToSd env n name).count Ev.started = 1
    ∧ (uploadToSd env n name).countP isCb ≤ 1
    ∧ (preOk env → (uploadToSd env n name).countP isCb = 1) := by
  obtain ⟨p, hall, hcase⟩ := processUpload_shape env n name
  unfold uploadToSd
  rcases hcase with ⟨heq, hpre⟩ | ⟨msg, heq⟩ | heq
  · rw [heq]
    refine ⟨?_, ?_, fun hp => absurd hp hpre⟩
    · simp [List.count_cons, List.count_append, count_started_zero hall]
    · simp [List.countP_cons, List.countP_append, countP_isCb_zero hall, isCb]
  · rw [heq]
    refine ⟨?_, ?_, fun _ => ?_⟩
    · simp [List.count_cons, List.count_append, count_started_zero hall]
    · simp [List.countP_cons, List.countP_append, countP_isCb_zero hall, isCb]
    · simp [List.countP_cons, List.countP_append, countP_isCb_zero hall, isCb]
  · rw [heq]
    refine ⟨?_, ?_, fun _ => ?_⟩
    · simp [List.count_cons, List.count_append, count_started_zero hall]
    · simp [List.countP_cons, List.countP_append, countP_isCb_zero hall, isCb]
    · simp [List.countP_cons, List.countP_append, countP_isCb_zero hall, isCb]

/-- Claim C5 counterexample: when the transfer-start command raises a
transport error, the session escapes after the started callback and
neither the succeeded nor the failed callback ever fires, refuting the
claim that exactly one completion callback fires on every exit path. -/
theorem upload_callbacks_zero_cex :
    (uploadToSd envM28Raise 2500 "file.gx").count Ev.started = 1
    ∧ (uploadToSd envM28Raise 2500 "file.gx").countP isCb = 0 := by
  decide

/-- Claim C5 witness: a fully successful session fires exactly one
completion callback. -/
theorem upload_callbacks_once_witness :
    (uploadToSd envAllOk 2500 "file.gx").countP isCb = 1 :=
  (upload_callbacks_once envAllOk 2500 "file.gx").2.2 (by
    refine ⟨?_, ?_, ?_, ?_⟩ <;> decide)

/-- Claim C2 (code bug): when the transfer-start command receives a
negative acknowledgment, the session does not abort immediately as the
specification requires; it records the not-started error, streams every
file chunk anyway, and only afterwards invokes the failure callback.  No
transfer-end command is sent and no success callback fires.  The trace
below evaluates the embedded code on a 2500-byte file whose M28 is
refused. -/
theorem upload_m28_nack_still_streams :
    uploadToSd envM28Nack 2500 "file.gx" =
      [Ev.started, Ev.makeExclusive true, Ev.send "M104 S0 T0", Ev.send "M104 S0 T1",
       Ev.send "M140 S0", Ev.send "M28 2500 0:/user/file.gx",
       Ev.writeChunk 0 1024, Ev.progress 40, Ev.writeChunk 1024 1024, Ev.progress 81,
       Ev.writeChunk 2048 452, Ev.progress 100,
       Ev.failed, Ev.makeExclusive false, Ev.raisedMsg "file transfer not started"]
    ∧ (uploadToSd envM28Nack 2500 "file.gx").contains (Ev.send "M29") = false
    ∧ (uploadToSd envM28Nack 2500 "file.gx").contains Ev.succeeded = false := by
  decide

/-- Claim C7 (confirmed): on a successful upload of a 2500-byte file the
session writes exactly three chunks of sizes 1024, 1024 and 452 in order,
the reported progress percentages 40, 81, 100 are strictly increasing,
and 100 is reported only after the final chunk. -/
theorem upload_chunks_2500 :
    chunkLens (uploadToSd envAllOk 2500 "file.gx") = [1024, 1024, 452]
    ∧ progressList (uploadToSd envAllOk 2500 "file.gx") = [40, 81, 100]
    ∧ List.Chain' (fun a b => a < b) (progressList (uploadToSd envAllOk 2500 "file.gx"))
    ∧ (progressList (uploadToSd envAllOk 2500 "file.gx")).getLast? = some 100
    ∧ 100 ∉ (progressList (uploadToSd envAllOk 2500 "file.gx")).dropLast
    ∧ (uploadToSd envAllOk 2500 "file.gx").contains Ev.succeeded = true := by
  have h2 : progressList (uploadToSd envAllOk 2500 "file.gx") = [40, 81, 100] := by
    decide
  refine ⟨by decide, h2, ?_, ?_, ?_, by decide⟩
  · rw [h2]
    norm_num [List.chain'_cons]
  · rw [h2]
    decide
  · rw [h2]
    decide
